import Mathlib

set_option linter.unusedVariables false
set_option linter.unusedSectionVars false
set_option linter.unnecessarySeqFocus false

/-!
Verification of the arm-raises movement-analysis engine.

This file gives a shallow embedding of the two analyzer implementations of the
repository and proves properties of the embedding.

The primary engine is the class `ArmRaisesAnalyzer` of the file
`src/unnamed/part_001` (phase state machine, rep counting, error detection,
scoring).  Its numeric logic is embedded over an arbitrary linear ordered
field `α`: instantiated at `ℚ` the definitions are fully executable, and the
landmark-level entry point `analyze` is instantiated at `ℝ` because the
geometry uses arctangents.  Timestamps (`Date.now()` values) are threaded as
explicit integer inputs, one per frame.  JavaScript `undefined` values that
arise on the fields dropped by `reset()` are modelled by `Option` (`none` =
`undefined`; `Date.now() - undefined = NaN` is modelled by `none`, and
`NaN >= 3000` is `false`, matching the `Option` pattern match).

The secondary analyzer `src/js/exercises/arm-raises/arm-raises-analyzer.js`
(its `updateState` state machine) is embedded separately in namespace
`ArmRaisesUpd`.
-/

namespace ArmRaises

/-- The four movement phases (four string constants in the source). -/
inductive Phase where
  | resting
  | raising
  | holding
  | lowering
deriving DecidableEq, Repr

/-- The form-error tags that can be produced (keys of `errorPenalties`).
The two shoulder-shrug tags are kept because they appear in the penalty
table and the feedback priority list, although the code that would add them
is commented out. -/
inductive ErrType where
  | shoulder_shrug_left
  | shoulder_shrug_right
  | arm_too_high_left
  | arm_too_high_right
  | asymmetric_movement
  | elbow_bent_left
  | elbow_bent_right
  | too_fast_raising
  | insufficient_height
deriving DecidableEq, Repr, Fintype

/-- Penalty table of `calculateFormScore` (the `|| 10` default of the source is
unreachable because every tag is a key of the table). -/
def errorPenalty : ErrType → ℤ
  | .shoulder_shrug_left => 10
  | .shoulder_shrug_right => 10
  | .arm_too_high_left => 15
  | .arm_too_high_right => 15
  | .asymmetric_movement => 20
  | .elbow_bent_left => 10
  | .elbow_bent_right => 10
  | .too_fast_raising => 15
  | .insufficient_height => 25

/-- The `currentRep` record.  `holdStartTime`, `holdDuration` and
`holdComplete` are `Option`s because `reset()` rebuilds the record without
those fields, leaving them `undefined` (`none`). -/
structure Rep (α : Type) where
  startTime : ℤ
  raiseTime : ℤ
  lowerTime : ℤ
  peakAngle : α
  holdStartTime : Option ℤ
  holdDuration : Option ℤ
  holdComplete : Option Bool
  errors : List ErrType
deriving DecidableEq

/-- The mutable fields of `ArmRaisesAnalyzer` (the `historySize` field is the
constant `5` and is inlined; the fields `restingLeftAngle`/`restingRightAngle`
written only by `reset()` are never read by any method and are omitted). -/
structure AnalyzerState (α : Type) where
  currentPhase : Phase
  previousPhase : Phase
  repCount : ℕ
  currentRep : Rep α
  leftArmHistory : List α
  rightArmHistory : List α
  currentErrors : List ErrType
  formScore : ℤ
  calibrated : Bool
  restingLeftShoulderY : α
  restingRightShoulderY : α
deriving DecidableEq

/-- The per-frame data consumed by the analysis pipeline after geometry: the
two per-side elevation angles and the two elbow angles produced by
`calculateArmAngles`, the shoulder heights used by the calibration branch,
and the frame `Date.now()` value. -/
structure FrameInput (α : Type) where
  leftArm : α
  rightArm : α
  leftElbow : α
  rightElbow : α
  leftShoulderY : α
  rightShoulderY : α
  now : ℤ
deriving DecidableEq

/-- The `angles` record built by `calculateArmAngles`. -/
structure AngleSet (α : Type) where
  leftArm : α
  rightArm : α
  averageArm : α
  leftElbow : α
  rightElbow : α
  symmetryDiff : α
deriving DecidableEq

/-- The feedback message chosen by `generateFeedback`; the two messages that
interpolate `angles.averageArm.toFixed(0)` carry the angle as payload. -/
inductive Feedback (α : Type) where
  | readyRestingMsg
  | goodRaisingMsg (angle : α)
  | perfectHoldingMsg (angle : α)
  | greatLoweringMsg
  | relaxShouldersMsg
  | dontRaiseAboveMsg
  | keepSameHeightMsg
  | keepStraighterMsg
  | slowerMovementMsg
  | raiseToShoulderMsg
  | adjustFormMsg
deriving DecidableEq

/-- The snapshot returned by `analyze`. -/
structure AnalysisResult (α : Type) where
  phase : Phase
  angles : AngleSet α
  errors : List ErrType
  repCount : ℕ
  formScore : ℤ
  feedback : Feedback α
  holdDuration : Option ℤ
  holdComplete : Option Bool
deriving DecidableEq

variable {α : Type} [LinearOrderedField α]

/-- Constructor value of `currentRep` (also the record rebuilt by
`updateRepCount` when a rep closes). -/
def initRep : Rep α :=
  { startTime := 0, raiseTime := 0, lowerTime := 0, peakAngle := 0,
    holdStartTime := some 0, holdDuration := some 0, holdComplete := some false,
    errors := [] }

/-- Constructor state of `ArmRaisesAnalyzer`. -/
def initState : AnalyzerState α :=
  { currentPhase := .resting, previousPhase := .resting, repCount := 0,
    currentRep := initRep, leftArmHistory := [], rightArmHistory := [],
    currentErrors := [], formScore := 100, calibrated := false,
    restingLeftShoulderY := 0, restingRightShoulderY := 0 }

/-- Embeds `reset()`.  Note: it rebuilds `currentRep` WITHOUT the `holdStartTime`,
`holdDuration` and `holdComplete` fields (they become `undefined`, i.e.
`none`), and it does not touch `restingLeftShoulderY`/`restingRightShoulderY`
(it writes the otherwise-unused `restingLeftAngle`/`restingRightAngle`
instead). -/
def reset (s : AnalyzerState α) : AnalyzerState α :=
  { currentPhase := .resting, previousPhase := .resting, repCount := 0,
    currentRep := { startTime := 0, raiseTime := 0, lowerTime := 0,
                    peakAngle := 0, holdStartTime := none, holdDuration := none,
                    holdComplete := none, errors := [] },
    leftArmHistory := [], rightArmHistory := [],
    currentErrors := [], formScore := 100, calibrated := false,
    restingLeftShoulderY := s.restingLeftShoulderY,
    restingRightShoulderY := s.restingRightShoulderY }

/-- Embeds `calculateArmAngles`, given the two per-side elevation angles and the two
elbow angles (which the source computes by trigonometry; see the geometry
section): the derived average and symmetry difference. -/
def calculateArmAngles (inp : FrameInput α) : AngleSet α :=
  { leftArm := inp.leftArm, rightArm := inp.rightArm,
    averageArm := (inp.leftArm + inp.rightArm) / 2,
    leftElbow := inp.leftElbow, rightElbow := inp.rightElbow,
    symmetryDiff := |inp.leftArm - inp.rightArm| }

/-- History push of `detectMovementPhase` lines 171-177: push both samples,
then if the buffer exceeds `historySize = 5`, shift (drop the oldest) from
both buffers. -/
def nextHists (s : AnalyzerState α) (l r : α) : List α × List α :=
  let lh := s.leftArmHistory ++ [l]
  let rh := s.rightArmHistory ++ [r]
  if 5 < lh.length then (lh.drop 1, rh.drop 1) else (lh, rh)

/-- Models `reduce((a, b) => a + b, 0) / length`. -/
def histAvg (h : List α) : α := h.sum / (h.length : α)

/-- The smoothed working signal of the phase machine: the mean of each per-side
(post-push) buffer, then the average of the two means
(`detectMovementPhase` lines 180-182). -/
def workingSignal (s : AnalyzerState α) (l r : α) : α :=
  let p := nextHists s l r
  (histAvg p.1 + histAvg p.2) / 2

/-- Embeds `detectMovementPhase(angles, landmarks)`.  Reads `this.previousPhase` and
`this.currentPhase` as they stand on entry (i.e. the phases of the two
preceding frames) and only at the end performs
`previousPhase := currentPhase; currentPhase := phase`.  `Date.now()` is
`inp.now`. -/
def detectMovementPhase (angles : AngleSet α) (inp : FrameInput α)
    (s : AnalyzerState α) : Phase × AnalyzerState α :=
  let p := nextHists s angles.leftArm angles.rightArm
  let avgAngle := workingSignal s angles.leftArm angles.rightArm
  let base : AnalyzerState α := { s with leftArmHistory := p.1, rightArmHistory := p.2 }
  let next : AnalyzerState α :=
    if avgAngle < 30 then
      -- resting band; calibrate on the first resting frame
      let b := { base with currentPhase := .resting }
      if ¬ s.calibrated then
        { b with restingLeftShoulderY := inp.leftShoulderY,
                 restingRightShoulderY := inp.rightShoulderY,
                 calibrated := true }
      else b
    else if 80 ≤ avgAngle ∧ avgAngle ≤ 100 then
      -- target band: holding; track peak angle and the hold timer
      let rep1 :=
        if s.currentRep.peakAngle < avgAngle then
          { s.currentRep with peakAngle := avgAngle }
        else s.currentRep
      let rep2 :=
        if s.previousPhase = .raising ∨ s.previousPhase = .holding then
          let hs := if rep1.holdStartTime = some 0 then some inp.now
                    else rep1.holdStartTime
          let hd := hs.map (fun t => inp.now - t)
          let hc := match hd with
            | some d => if 3000 ≤ d then some true else rep1.holdComplete
            | none => rep1.holdComplete
          { rep1 with holdStartTime := hs, holdDuration := hd, holdComplete := hc }
        else rep1
      { base with currentPhase := .holding, currentRep := rep2 }
    else if 30 < avgAngle ∧ avgAngle < 80 then
      -- transition band: direction depends on the phase being left
      if s.currentPhase = .resting then
        let rep1 :=
          if s.previousPhase = .resting then
            { s.currentRep with startTime := inp.now }
          else s.currentRep
        { base with currentPhase := .raising, currentRep := rep1 }
      else if s.currentPhase = .holding then
        let rep1 :=
          if s.previousPhase = .holding then
            { s.currentRep with raiseTime := inp.now - s.currentRep.startTime }
          else s.currentRep
        { base with currentPhase := .lowering, currentRep := rep1 }
      else
        { base with currentPhase := s.currentPhase }
    else
      -- avgAngle = 30 or avgAngle > 100: no branch fires, keep the phase
      { base with currentPhase := s.currentPhase }
  (next.currentPhase, { next with previousPhase := s.currentPhase })

/-- Embeds `detectErrors(landmarks, angles, phase)`: runs after the phase update, so
`s` here is the post-`detectMovementPhase` state (its `previousPhase` is the
phase of the preceding frame).  The shoulder-shrug check is commented out in
the source.  The returned list is in the insertion order of the source
`Set`. -/
def detectErrors (angles : AngleSet α) (phase : Phase)
    (s : AnalyzerState α) : List ErrType :=
  (if 110 < angles.leftArm then [ErrType.arm_too_high_left] else []) ++
  (if 110 < angles.rightArm then [ErrType.arm_too_high_right] else []) ++
  (if 15 < angles.symmetryDiff ∧ (phase = .raising ∨ phase = .holding) then
    [ErrType.asymmetric_movement] else []) ++
  (if angles.leftElbow < 140 then [ErrType.elbow_bent_left] else []) ++
  (if angles.rightElbow < 140 then [ErrType.elbow_bent_right] else []) ++
  (if phase = .holding ∧ s.previousPhase = .raising ∧
      0 < s.currentRep.raiseTime ∧ s.currentRep.raiseTime < 1500 then
    [ErrType.too_fast_raising] else []) ++
  (if phase = .lowering ∧ s.currentRep.peakAngle < 70 then
    [ErrType.insufficient_height] else [])

/-- Embeds `updateRepCount(phase, angles)`: runs after the phase update, so
`s.previousPhase` is the phase of the preceding frame.  A rep is counted iff
it reached a peak of at least 70, and `currentRep` is rebuilt (with all its
constructor fields) whenever the `lowering → resting` transition fires. -/
def updateRepCount (phase : Phase) (s : AnalyzerState α) : AnalyzerState α :=
  if phase = .resting ∧ s.previousPhase = .lowering then
    { s with
      repCount := if 70 ≤ s.currentRep.peakAngle then s.repCount + 1 else s.repCount,
      currentRep := initRep }
  else s

/-- Embeds `calculateFormScore(errors)`: start at 100, subtract the penalty of each present error, floor at 0, store and return. -/
def calculateFormScore (errors : List ErrType) (s : AnalyzerState α) :
    ℤ × AnalyzerState α :=
  let score := errors.foldl (fun sc e => sc - errorPenalty e) 100
  let fs := max 0 score
  (fs, { s with formScore := fs })

/-- Embeds `generateFeedback(errors, phase, angles)`: one message; with no errors a
phase-specific message (the fallback to the default message is unreachable
because every phase has an entry), otherwise the first match of the fixed
priority order. -/
def generateFeedback (errors : List ErrType) (phase : Phase)
    (angles : AngleSet α) : Feedback α :=
  if errors = [] then
    match phase with
    | .resting => .readyRestingMsg
    | .raising => .goodRaisingMsg angles.averageArm
    | .holding => .perfectHoldingMsg angles.averageArm
    | .lowering => .greatLoweringMsg
  else if ErrType.shoulder_shrug_left ∈ errors ∨
          ErrType.shoulder_shrug_right ∈ errors then .relaxShouldersMsg
  else if ErrType.arm_too_high_left ∈ errors ∨
          ErrType.arm_too_high_right ∈ errors then .dontRaiseAboveMsg
  else if ErrType.asymmetric_movement ∈ errors then .keepSameHeightMsg
  else if ErrType.elbow_bent_left ∈ errors ∨
          ErrType.elbow_bent_right ∈ errors then .keepStraighterMsg
  else if ErrType.too_fast_raising ∈ errors then .slowerMovementMsg
  else if ErrType.insufficient_height ∈ errors then .raiseToShoulderMsg
  else .adjustFormMsg

/-- The body of `analyze` after the landmark-count guard: the full per-frame
pipeline in source order, returning the snapshot and the new state.  The
fields `holdDuration`/`holdComplete` of the result are read from `currentRep` after
`updateRepCount` ran (so they are the freshly reset values when a rep closes
on this very frame). -/
def stepValid (inp : FrameInput α) (s : AnalyzerState α) :
    AnalysisResult α × AnalyzerState α :=
  let angles := calculateArmAngles inp
  let pr := detectMovementPhase angles inp s
  let phase := pr.1
  let s1 := pr.2
  let errors := detectErrors angles phase s1
  let s2 := { s1 with currentErrors := errors }
  let s3 := updateRepCount phase s2
  let fs := calculateFormScore errors s3
  ({ phase := phase, angles := angles, errors := errors,
     repCount := fs.2.repCount, formScore := fs.1,
     feedback := generateFeedback errors phase angles,
     holdDuration := fs.2.currentRep.holdDuration,
     holdComplete := fs.2.currentRep.holdComplete }, fs.2)

/-- A whole session segment: fold `stepValid` over a frame sequence. -/
def runSeq (inps : List (FrameInput α)) (s : AnalyzerState α) : AnalyzerState α :=
  inps.foldl (fun st i => (stepValid i st).2) s

/-- One MediaPipe pose landmark as consumed by the analyzer. -/
structure Landmark where
  x : ℝ
  y : ℝ
  z : ℝ
  visibility : ℝ

/-- Models `Math.atan2(y, x)` over the reals (the zero-sign distinctions of IEEE
signed zeros collapse: `atan2 0 0 = 0`). -/
noncomputable def jsAtan2 (y x : ℝ) : ℝ :=
  if 0 < x then Real.arctan (y / x)
  else if x < 0 then
    (if 0 ≤ y then Real.arctan (y / x) + Real.pi else Real.arctan (y / x) - Real.pi)
  else
    (if 0 < y then Real.pi / 2 else if y < 0 then -(Real.pi / 2) else 0)

/-- Embeds `calculateArmAngleFromBody(shoulder, elbow, wrist, hip)` — the per-side
elevation angle from the vertical (the `elbow` and `hip` parameters are
unused by the source body). -/
noncomputable def calculateArmAngleFromBody (shoulder elbow wrist hip : Landmark) : ℝ :=
  let deltaX := |wrist.x - shoulder.x|
  let deltaY := |wrist.y - shoulder.y|
  let angle :=
    if shoulder.y < wrist.y then jsAtan2 deltaX deltaY * 180 / Real.pi
    else 90 + jsAtan2 deltaY deltaX * 180 / Real.pi
  max 0 (min 180 angle)

/-- Embeds `calculateElbowAngle(shoulder, elbow, wrist)`. -/
noncomputable def calculateElbowAngle (shoulder elbow wrist : Landmark) : ℝ :=
  let radians := jsAtan2 (wrist.y - elbow.y) (wrist.x - elbow.x) -
                 jsAtan2 (shoulder.y - elbow.y) (shoulder.x - elbow.x)
  let angle := |radians * 180 / Real.pi|
  if 180 < angle then 360 - angle else angle

/-- Default landmark standing for a JavaScript out-of-range access; `analyze`
only touches landmark fields behind the `length < 33` guard, where every
consumed index exists. -/
def dummyLandmark : Landmark := ⟨0, 0, 0, 0⟩

/-- The geometry front end of `analyze`: the per-side angles of
`calculateArmAngles` (landmark indices 11/12 shoulders, 13/14 elbows, 15/16
wrists, 23/24 hips), the shoulder heights consumed by calibration, and the
frame timestamp. -/
noncomputable def frameInputOf (lm : List Landmark) (now : ℤ) : FrameInput ℝ :=
  { leftArm := calculateArmAngleFromBody (lm.getD 11 dummyLandmark)
      (lm.getD 13 dummyLandmark) (lm.getD 15 dummyLandmark) (lm.getD 23 dummyLandmark),
    rightArm := calculateArmAngleFromBody (lm.getD 12 dummyLandmark)
      (lm.getD 14 dummyLandmark) (lm.getD 16 dummyLandmark) (lm.getD 24 dummyLandmark),
    leftElbow := calculateElbowAngle (lm.getD 11 dummyLandmark)
      (lm.getD 13 dummyLandmark) (lm.getD 15 dummyLandmark),
    rightElbow := calculateElbowAngle (lm.getD 12 dummyLandmark)
      (lm.getD 14 dummyLandmark) (lm.getD 16 dummyLandmark),
    leftShoulderY := (lm.getD 11 dummyLandmark).y,
    rightShoulderY := (lm.getD 12 dummyLandmark).y,
    now := now }

/-- Embeds `analyze(landmarks)`: `null` input or fewer than 33 landmarks returns
`null` with the state untouched; otherwise the full pipeline runs. -/
noncomputable def analyze (landmarks : Option (List Landmark)) (now : ℤ)
    (s : AnalyzerState ℝ) : Option (AnalysisResult ℝ) × AnalyzerState ℝ :=
  match landmarks with
  | none => (none, s)
  | some lm =>
    if lm.length < 33 then (none, s)
    else
      let r := stepValid (frameInputOf lm now) s
      (some r.1, r.2)

/-- Specification model (for the refinement claim about smoothing): the most
recent `k` entries of a list, oldest evicted first. -/
def lastN {β : Type} (k : ℕ) (l : List β) : List β := l.drop (l.length - k)

/-- Specification model: the single fixed-capacity (5-sample) rolling buffer
holding the average-elevation angle of each of the most recent frames, as the
spec describes the Temporal Smoother. -/
def specBuffer (inputs : List (α × α)) : List α :=
  lastN 5 (inputs.map (fun p => (p.1 + p.2) / 2))

/-- Specification model: the arithmetic mean of the single rolling buffer —
the working signal of the phase machine as the spec describes it. -/
def specSignal (inputs : List (α × α)) : α := histAvg (specBuffer inputs)

/-- Characterization helper: the phase produced by one `detectMovementPhase`
call as a function of the smoothed working signal `w` and the phase `p` of
the preceding frame. -/
def nextPhase (w : α) (p : Phase) : Phase :=
  if w < 30 then .resting
  else if 80 ≤ w ∧ w ≤ 100 then .holding
  else if 30 < w ∧ w < 80 then
    (if p = .resting then .raising else if p = .holding then .lowering else p)
  else p

/-- A symmetric frame: both arms at angle `a`, straight elbows, timestamp `t`. -/
def flatInp (a : ℚ) (t : ℤ) : FrameInput ℚ := ⟨a, a, 180, 180, 1/2, 1/2, t⟩

/-- State after one symmetric frame `a` at time `t`. -/
def stepSt (a : ℚ) (t : ℤ) (s : AnalyzerState ℚ) : AnalyzerState ℚ :=
  (stepValid (flatInp a t) s).2

/-- State after a single resting frame (10°) at `t = 0` on a fresh analyzer. -/
def restSt : AnalyzerState ℚ := stepSt 10 0 initState

/-- State after frames 10° then 70°: one frame into a rep (phase `raising`,
`startTime = 100`). -/
def raiseSt : AnalyzerState ℚ := stepSt 70 100 restSt

/-- A rep record with a qualifying recorded peak (96°). -/
def lowRep : Rep ℚ := { (initRep : Rep ℚ) with peakAngle := 96 }

/-- A lowering-phase state with a qualifying recorded peak (96°) and empty
smoothing buffers. -/
def lowSt : AnalyzerState ℚ :=
  { (initState : AnalyzerState ℚ) with
    currentPhase := Phase.lowering, currentRep := lowRep }

/-- A 20-landmark frame (malformed: fewer than the 33 required). -/
def shortFrame : List Landmark := List.replicate 20 dummyLandmark

/-- Concrete shoulder landmark for geometry witnesses. -/
noncomputable def lmShoulder : Landmark := ⟨0, 0, 0, 1⟩

/-- Concrete elbow landmark (unused by the elevation-angle formula). -/
noncomputable def lmElbow : Landmark := ⟨0, 3/10, 0, 1⟩

/-- A wrist below the shoulder in image coordinates (`y` larger). -/
noncomputable def lmWristDown : Landmark := ⟨1/2, 1, 0, 1⟩

/-- A wrist above the shoulder in image coordinates (`y` smaller). -/
noncomputable def lmWristUp : Landmark := ⟨1/2, -1, 0, 1⟩

/-- Concrete hip landmark (unused by the elevation-angle formula). -/
noncomputable def lmHip : Landmark := ⟨0, 1, 0, 1⟩

end ArmRaises

namespace ArmRaisesUpd

/-- Exercise states of the second analyzer
(`src/js/exercises/arm-raises/arm-raises-analyzer.js`). -/
inductive UState where
  | resting
  | raising
  | holding
  | lowering
deriving DecidableEq, Repr

/-- The state read and written by `updateState` of the second analyzer.
`holdStartTime` and `repStartTime` are `null` in the constructor (`none`). -/
structure UpdState where
  currentState : UState
  previousState : UState
  repCount : ℕ
  holdStartTime : Option ℤ
  lastTransitionTime : ℤ
  repStartTime : Option ℤ
  validRep : Bool
deriving DecidableEq, Repr

/-- Constructor state of the second analyzer (constructed at time `t0`, when
`lastTransitionTime = Date.now()`). -/
def initUpd (t0 : ℤ) : UpdState :=
  { currentState := .resting, previousState := .resting, repCount := 0,
    holdStartTime := none, lastTransitionTime := t0, repStartTime := none,
    validRep := false }

/-- Thresholds of the second analyzer: `restingMax = 30`, `raisedMin = 75`;
`this.holdDuration = 3000` is the hold-time threshold. -/
def restingMax : ℚ := 30

/-- Entry threshold of the target band (`raisedMin`). -/
def raisedMin : ℚ := 75

/-- Embeds `updateState(angles)` of the second analyzer, with `avgShoulder` and
`Date.now()` as explicit inputs.  `const holdTime = now - this.holdStartTime`
with a `null` `holdStartTime` would be `now - 0` in JavaScript (`null`
coerces to 0); in every reachable `HOLDING` state `holdStartTime` is set, and
the coercion is modelled by `Option.getD 0`. -/
def updateState (avgShoulder : ℚ) (now : ℤ) (s : UpdState) : UpdState :=
  if now - s.lastTransitionTime < 300 then s
  else
    let s := { s with previousState := s.currentState }
    match s.currentState with
    | .resting =>
      if restingMax + 10 < avgShoulder then
        { s with currentState := .raising, lastTransitionTime := now,
                 repStartTime := some now, validRep := true }
      else s
    | .raising =>
      if raisedMin ≤ avgShoulder then
        { s with currentState := .holding, holdStartTime := some now,
                 lastTransitionTime := now }
      else if avgShoulder < restingMax then
        { s with currentState := .resting, lastTransitionTime := now,
                 validRep := false }
      else s
    | .holding =>
      let holdTime := now - s.holdStartTime.getD 0
      if 3000 ≤ holdTime ∨ avgShoulder < raisedMin - 20 then
        { s with currentState := .lowering, lastTransitionTime := now }
      else s
    | .lowering =>
      if avgShoulder ≤ restingMax then
        { s with currentState := .resting, lastTransitionTime := now,
                 repCount := if s.validRep then s.repCount + 1 else s.repCount,
                 validRep := false }
      else s

/-- The invariant tying the hold timer to the debounce timer: in `HOLDING`
the last transition was the one that entered `HOLDING`, which set both. -/
def HoldInv (s : UpdState) : Prop :=
  s.currentState = .holding → s.holdStartTime = some s.lastTransitionTime

instance (s : UpdState) : Decidable (HoldInv s) := by
  unfold HoldInv
  infer_instance

/-- Trace state: constructed at `t0 = 0`, one frame 50° at `t = 300`
(`RESTING → RAISING`). -/
def uS1 : UpdState := updateState 50 300 (initUpd 0)

/-- Trace state: then one frame 80° at `t = 600` (`RAISING → HOLDING`,
`holdStartTime = lastTransitionTime = 600`). -/
def uS2 : UpdState := updateState 80 600 uS1

end ArmRaisesUpd

namespace ArmRaises

variable {α : Type} [LinearOrderedField α]

/-! Constructor disequalities of `Phase`, as rewrite rules so that concrete
states reduce under `simp`/`norm_num`. -/

@[simp] theorem phase_resting_raising_ne : (Phase.resting = Phase.raising) = False := by simp

@[simp] theorem phase_resting_holding_ne : (Phase.resting = Phase.holding) = False := by simp

@[simp] theorem phase_resting_lowering_ne : (Phase.resting = Phase.lowering) = False := by simp

@[simp] theorem phase_raising_resting_ne : (Phase.raising = Phase.resting) = False := by simp

@[simp] theorem phase_raising_holding_ne : (Phase.raising = Phase.holding) = False := by simp

@[simp] theorem phase_raising_lowering_ne : (Phase.raising = Phase.lowering) = False := by simp

@[simp] theorem phase_holding_resting_ne : (Phase.holding = Phase.resting) = False := by simp

@[simp] theorem phase_holding_raising_ne : (Phase.holding = Phase.raising) = False := by simp

@[simp] theorem phase_holding_lowering_ne : (Phase.holding = Phase.lowering) = False := by simp

@[simp] theorem phase_lowering_resting_ne : (Phase.lowering = Phase.resting) = False := by simp

@[simp] theorem phase_lowering_raising_ne : (Phase.lowering = Phase.raising) = False := by simp

@[simp] theorem phase_lowering_holding_ne : (Phase.lowering = Phase.holding) = False := by simp

theorem dmp_fst (a : AngleSet α) (inp : FrameInput α) (s : AnalyzerState α) :
    (detectMovementPhase a inp s).1 =
      nextPhase (workingSignal s a.leftArm a.rightArm) s.currentPhase := by
  unfold detectMovementPhase nextPhase
  dsimp only
  split_ifs <;> rfl

theorem dmp_snd_previousPhase (a : AngleSet α) (inp : FrameInput α)
    (s : AnalyzerState α) :
    (detectMovementPhase a inp s).2.previousPhase = s.currentPhase := rfl

theorem dmp_snd_currentPhase (a : AngleSet α) (inp : FrameInput α)
    (s : AnalyzerState α) :
    (detectMovementPhase a inp s).2.currentPhase = (detectMovementPhase a inp s).1 := rfl

theorem dmp_snd_repCount (a : AngleSet α) (inp : FrameInput α)
    (s : AnalyzerState α) :
    (detectMovementPhase a inp s).2.repCount = s.repCount := by
  unfold detectMovementPhase
  dsimp only
  split_ifs <;> rfl

theorem dmp_snd_peakAngle (a : AngleSet α) (inp : FrameInput α)
    (s : AnalyzerState α) :
    (detectMovementPhase a inp s).2.currentRep.peakAngle =
      (if 80 ≤ workingSignal s a.leftArm a.rightArm ∧
          workingSignal s a.leftArm a.rightArm ≤ 100 ∧
          s.currentRep.peakAngle < workingSignal s a.leftArm a.rightArm
       then workingSignal s a.leftArm a.rightArm else s.currentRep.peakAngle) := by
  unfold detectMovementPhase
  dsimp only
  split_ifs <;> simp_all <;> linarith

theorem dmp_snd_raiseTime (a : AngleSet α) (inp : FrameInput α)
    (s : AnalyzerState α) :
    (detectMovementPhase a inp s).2.currentRep.raiseTime =
      (if 30 < workingSignal s a.leftArm a.rightArm ∧
          workingSignal s a.leftArm a.rightArm < 80 ∧
          s.currentPhase = .holding ∧ s.previousPhase = .holding
       then inp.now - s.currentRep.startTime else s.currentRep.raiseTime) := by
  unfold detectMovementPhase
  dsimp only
  split_ifs <;> simp_all <;> linarith

theorem updateRepCount_repCount (phase : Phase) (s : AnalyzerState α) :
    (updateRepCount phase s).repCount =
      (if phase = .resting ∧ s.previousPhase = .lowering ∧ 70 ≤ s.currentRep.peakAngle
       then s.repCount + 1 else s.repCount) := by
  unfold updateRepCount
  split_ifs <;> simp_all

theorem nextPhase_resting_lowering (w : α) (p : Phase) :
    (nextPhase w p = .resting ∧ p = .lowering) ↔ (p = .lowering ∧ w < 30) := by
  rcases p <;> simp [nextPhase] <;> split_ifs <;> simp_all

theorem setErrors_previousPhase (s : AnalyzerState α) (e : List ErrType) :
    ({ s with currentErrors := e }).previousPhase = s.previousPhase := rfl

theorem setErrors_repCount (s : AnalyzerState α) (e : List ErrType) :
    ({ s with currentErrors := e }).repCount = s.repCount := rfl

theorem setErrors_currentRep (s : AnalyzerState α) (e : List ErrType) :
    ({ s with currentErrors := e }).currentRep = s.currentRep := rfl

theorem stepValid_snd_repCount (inp : FrameInput ℚ) (s : AnalyzerState ℚ) :
    (stepValid inp s).2.repCount =
      (if s.currentPhase = .lowering ∧ workingSignal s inp.leftArm inp.rightArm < 30 ∧
          70 ≤ s.currentRep.peakAngle
       then s.repCount + 1 else s.repCount) := by
  have hstep : (stepValid inp s).2.repCount =
      (updateRepCount (detectMovementPhase (calculateArmAngles inp) inp s).1
        { (detectMovementPhase (calculateArmAngles inp) inp s).2 with
          currentErrors := detectErrors (calculateArmAngles inp)
            (detectMovementPhase (calculateArmAngles inp) inp s).1
            (detectMovementPhase (calculateArmAngles inp) inp s).2 }).repCount := rfl
  have hw : workingSignal s (calculateArmAngles inp).leftArm
      (calculateArmAngles inp).rightArm = workingSignal s inp.leftArm inp.rightArm := rfl
  rw [hstep, updateRepCount_repCount, setErrors_previousPhase, setErrors_repCount,
    setErrors_currentRep, dmp_snd_previousPhase, dmp_snd_repCount]
  by_cases hc : s.currentPhase = .lowering ∧ workingSignal s inp.leftArm inp.rightArm < 30
  · obtain ⟨hp, hwlt⟩ := hc
    have hph : (detectMovementPhase (calculateArmAngles inp) inp s).1 = .resting := by
      rw [dmp_fst, hw]
      simp [nextPhase, hwlt]
    have hpk : (detectMovementPhase (calculateArmAngles inp) inp s).2.currentRep.peakAngle
        = s.currentRep.peakAngle := by
      rw [dmp_snd_peakAngle, hw, if_neg]
      rintro ⟨h80, -⟩
      linarith
    rw [hph, hpk]
    simp [hp, hwlt]
  · have hnot : ¬ ((detectMovementPhase (calculateArmAngles inp) inp s).1 = .resting ∧
        s.currentPhase = .lowering) := fun h => by
      rw [dmp_fst, hw] at h
      exact hc ⟨((nextPhase_resting_lowering _ _).mp h).1,
        ((nextPhase_resting_lowering _ _).mp h).2⟩
    rw [if_neg (fun h => hnot ⟨h.1, h.2.1⟩),
      if_neg (fun h => hc ⟨h.1, h.2.1⟩)]

theorem updateRepCount_currentRep (phase : Phase) (s : AnalyzerState α) :
    (updateRepCount phase s).currentRep =
      (if phase = .resting ∧ s.previousPhase = .lowering then initRep
       else s.currentRep) := by
  unfold updateRepCount
  split_ifs <;> rfl

theorem stepValid_close_currentRep (inp : FrameInput ℚ) (s : AnalyzerState ℚ)
    (h1 : s.currentPhase = .lowering)
    (h2 : workingSignal s inp.leftArm inp.rightArm < 30) :
    (stepValid inp s).2.currentRep = initRep := by
  have hstep : (stepValid inp s).2.currentRep =
      (updateRepCount (detectMovementPhase (calculateArmAngles inp) inp s).1
        { (detectMovementPhase (calculateArmAngles inp) inp s).2 with
          currentErrors := detectErrors (calculateArmAngles inp)
            (detectMovementPhase (calculateArmAngles inp) inp s).1
            (detectMovementPhase (calculateArmAngles inp) inp s).2 }).currentRep := rfl
  have hw : workingSignal s (calculateArmAngles inp).leftArm
      (calculateArmAngles inp).rightArm = workingSignal s inp.leftArm inp.rightArm := rfl
  have hph : (detectMovementPhase (calculateArmAngles inp) inp s).1 = .resting := by
    rw [dmp_fst, hw]
    simp [nextPhase, h2]
  rw [hstep, updateRepCount_currentRep, setErrors_previousPhase, dmp_snd_previousPhase,
    if_pos ⟨hph, h1⟩]

theorem stepValid_repCount_mono (inp : FrameInput ℚ) (s : AnalyzerState ℚ) :
    s.repCount ≤ (stepValid inp s).2.repCount := by
  rw [stepValid_snd_repCount]
  split_ifs <;> omega

/-- C1: `repCount` increments exactly at a `LOWERING → RESTING` transition
(the smoothed working signal falling under the resting threshold 30 while the
phase of the previous frame is `lowering`) with `currentRep.peakAngle ≥ 70`, and at
every such transition `currentRep` is reset to its initial record whether or
not the rep qualified. -/
theorem repCount_increment_iff (inp : FrameInput ℚ) (s : AnalyzerState ℚ) :
    ((stepValid inp s).2.repCount = s.repCount + 1 ∨
     (stepValid inp s).2.repCount = s.repCount) ∧
    ((stepValid inp s).2.repCount = s.repCount + 1 ↔
      (s.currentPhase = .lowering ∧ workingSignal s inp.leftArm inp.rightArm < 30 ∧
       70 ≤ s.currentRep.peakAngle)) ∧
    (s.currentPhase = .lowering ∧ workingSignal s inp.leftArm inp.rightArm < 30 →
      (stepValid inp s).2.currentRep = initRep) := by
  refine ⟨?_, ?_, fun h => stepValid_close_currentRep inp s h.1 h.2⟩
  · rw [stepValid_snd_repCount]
    split_ifs <;> simp
  · rw [stepValid_snd_repCount]
    split_ifs with h <;> simp [h] <;> omega

/-- C1 witness: a lowering-phase state with recorded peak 96 fed a resting
frame closes the rep, increments the count and resets `currentRep`. -/
theorem repCount_increment_iff_witness :
    (lowSt.currentPhase = .lowering ∧ workingSignal lowSt 0 0 < 30 ∧
     70 ≤ lowSt.currentRep.peakAngle) ∧
    (stepValid (flatInp 0 500) lowSt).2.repCount = lowSt.repCount + 1 ∧
    (stepValid (flatInp 0 500) lowSt).2.currentRep = initRep :=
  ⟨⟨rfl, by norm_num [workingSignal, nextHists, histAvg, lowSt, lowRep, initState, initRep],
    by norm_num [lowSt, lowRep, initRep]⟩,
   (repCount_increment_iff (flatInp 0 500) lowSt).2.1.mpr
     ⟨rfl, by norm_num [workingSignal, nextHists, histAvg, lowSt, lowRep, initState,
        initRep, flatInp],
      by norm_num [lowSt, lowRep, initRep]⟩,
   (repCount_increment_iff (flatInp 0 500) lowSt).2.2
     ⟨rfl, by norm_num [workingSignal, nextHists, histAvg, lowSt, lowRep, initState,
        initRep, flatInp]⟩⟩

/-- C2: across any frame sequence of one session `repCount` never decreases,
and `reset()` is the operation that takes it back to 0. -/
theorem repCount_monotone_and_reset :
    (∀ (inps : List (FrameInput ℚ)) (s : AnalyzerState ℚ),
      s.repCount ≤ (runSeq inps s).repCount) ∧
    (∀ s : AnalyzerState ℚ, (reset s).repCount = 0) := by
  constructor
  · intro inps
    induction inps with
    | nil => intro s; simp [runSeq]
    | cons i t ih =>
      intro s
      have h1 : runSeq (i :: t) s = runSeq t (stepValid i s).2 := by
        simp [runSeq]
      rw [h1]
      exact le_trans (stepValid_repCount_mono i s) (ih (stepValid i s).2)
  · intro s
    rfl

/-- C3: a `null` frame or one with fewer than 33 landmarks makes `analyze`
return no result and leave the analyzer state unchanged in every field. -/
theorem analyze_short_input_noop :
    (∀ (s : AnalyzerState ℝ) (t : ℤ), analyze none t s = (none, s)) ∧
    (∀ (s : AnalyzerState ℝ) (t : ℤ) (lm : List Landmark),
      lm.length < 33 → analyze (some lm) t s = (none, s)) := by
  refine ⟨fun s t => rfl, fun s t lm h => ?_⟩
  simp [analyze, h]

/-- C3 witness: a 20-landmark frame is rejected with the state untouched. -/
theorem analyze_short_input_noop_witness :
    shortFrame.length < 33 ∧
    analyze (some shortFrame) 0 initState = (none, initState) :=
  ⟨by simp only [shortFrame, List.length_replicate]; norm_num,
   analyze_short_input_noop.2 initState 0 shortFrame
     (by simp only [shortFrame, List.length_replicate]; norm_num)⟩

/-- C4 (code bug): after `reset()` the very first valid frame already returns
`holdDuration = undefined` and `holdComplete = undefined` (`none`), whereas a
fresh analyzer returns `0` and `false`, so the snapshots differ — `reset()`
rebuilds `currentRep` without those fields. -/
theorem reset_diverges_from_fresh :
    (stepValid (flatInp 10 0) (reset restSt)).1.holdDuration = none ∧
    (stepValid (flatInp 10 0) initState).1.holdDuration = some 0 ∧
    (stepValid (flatInp 10 0) (reset restSt)).1.holdComplete = none ∧
    (stepValid (flatInp 10 0) initState).1.holdComplete = some false ∧
    (stepValid (flatInp 10 0) (reset restSt)).1 ≠
      (stepValid (flatInp 10 0) initState).1 := by
  have h1 : (stepValid (flatInp 10 0) (reset restSt)).1.holdDuration = none := by
    norm_num [stepValid, detectMovementPhase, detectErrors, updateRepCount,
      calculateFormScore, generateFeedback, calculateArmAngles, nextHists, histAvg,
      workingSignal, initState, initRep, reset, restSt, stepSt, flatInp]
  have h2 : (stepValid (flatInp 10 0) initState).1.holdDuration = some 0 := by
    norm_num [stepValid, detectMovementPhase, detectErrors, updateRepCount,
      calculateFormScore, generateFeedback, calculateArmAngles, nextHists, histAvg,
      workingSignal, initState, initRep, flatInp]
  have h3 : (stepValid (flatInp 10 0) (reset restSt)).1.holdComplete = none := by
    norm_num [stepValid, detectMovementPhase, detectErrors, updateRepCount,
      calculateFormScore, generateFeedback, calculateArmAngles, nextHists, histAvg,
      workingSignal, initState, initRep, reset, restSt, stepSt, flatInp]
  have h4 : (stepValid (flatInp 10 0) initState).1.holdComplete = some false := by
    norm_num [stepValid, detectMovementPhase, detectErrors, updateRepCount,
      calculateFormScore, generateFeedback, calculateArmAngles, nextHists, histAvg,
      workingSignal, initState, initRep, flatInp]
  refine ⟨h1, h2, h3, h4, fun heq => ?_⟩
  rw [heq, h2] at h1
  exact Option.noConfusion h1

theorem foldl_sub_errorPenalty (errs : List ErrType) (c : ℤ) :
    errs.foldl (fun sc e => sc - errorPenalty e) c = c - (errs.map errorPenalty).sum := by
  induction errs generalizing c with
  | nil => simp
  | cons e t ih =>
    simp only [List.foldl_cons, List.map_cons, List.sum_cons, ih]
    ring

theorem errorPenalty_sum_nonneg (errs : List ErrType) :
    0 ≤ (errs.map errorPenalty).sum := by
  refine List.sum_nonneg ?_
  intro x hx
  obtain ⟨e, -, rfl⟩ := List.mem_map.mp hx
  cases e <;> decide

/-- C5 counterexample: the penalty of the too-high variants (15) is not among
the smallest — the bent-elbow penalty (10) is strictly smaller, so "smallest
for the bent-elbow and too-high variants" fails at `arm_too_high_left`. -/
theorem penalty_tooHigh_not_smallest :
    ¬ (errorPenalty ErrType.arm_too_high_left ≤ errorPenalty ErrType.elbow_bent_left) := by
  decide

/-- C5 (amended): the form score equals 100 minus the fixed penalty of each
distinct error present, floored at 0, hence always in `[0, 100]`; the two
largest penalties are `insufficient_height` (25) and `asymmetric_movement`
(20); the smallest belongs to the bent-elbow variants (10, shared with the
disabled shoulder-shrug entries), while the too-high variants share the
middle penalty (15) with `too_fast_raising`. -/
theorem formScore_spec :
    (∀ (errs : List ErrType) (s : AnalyzerState ℚ),
      (calculateFormScore errs s).1 = max 0 (100 - (errs.map errorPenalty).sum)) ∧
    (∀ (inp : FrameInput ℚ) (s : AnalyzerState ℚ),
      0 ≤ (stepValid inp s).1.formScore ∧ (stepValid inp s).1.formScore ≤ 100) ∧
    (∀ e : ErrType, e ≠ .insufficient_height →
      errorPenalty e ≤ errorPenalty .asymmetric_movement) ∧
    (∀ e : ErrType, e ≠ .insufficient_height → e ≠ .asymmetric_movement →
      errorPenalty e < errorPenalty .asymmetric_movement) ∧
    (∀ e : ErrType, errorPenalty .elbow_bent_left ≤ errorPenalty e) ∧
    errorPenalty .insufficient_height = 25 ∧
    errorPenalty .asymmetric_movement = 20 ∧
    errorPenalty .elbow_bent_left = 10 ∧
    errorPenalty .arm_too_high_left = 15 ∧
    errorPenalty .arm_too_high_left = errorPenalty .too_fast_raising := by
  have hscore : ∀ (errs : List ErrType) (s : AnalyzerState ℚ),
      (calculateFormScore errs s).1 = max 0 (100 - (errs.map errorPenalty).sum) := by
    intro errs s
    unfold calculateFormScore
    rw [foldl_sub_errorPenalty]
  refine ⟨hscore, fun inp s => ?_, by decide, by decide, by decide,
    by decide, by decide, by decide, by decide, by decide⟩
  have h : (stepValid inp s).1.formScore =
      (calculateFormScore (detectErrors (calculateArmAngles inp)
        (detectMovementPhase (calculateArmAngles inp) inp s).1
        (detectMovementPhase (calculateArmAngles inp) inp s).2)
        (updateRepCount (detectMovementPhase (calculateArmAngles inp) inp s).1
          { (detectMovementPhase (calculateArmAngles inp) inp s).2 with
            currentErrors := detectErrors (calculateArmAngles inp)
              (detectMovementPhase (calculateArmAngles inp) inp s).1
              (detectMovementPhase (calculateArmAngles inp) inp s).2 })).1 := rfl
  rw [h, hscore]
  constructor
  · exact le_max_left 0 _
  · have := errorPenalty_sum_nonneg (detectErrors (calculateArmAngles inp)
      (detectMovementPhase (calculateArmAngles inp) inp s).1
      (detectMovementPhase (calculateArmAngles inp) inp s).2)
    refine max_le (by norm_num) (by linarith)

/-- C5 witness: the score formula and the penalty-order facts instantiated at
concrete errors. -/
theorem formScore_spec_witness :
    ErrType.elbow_bent_left ≠ ErrType.insufficient_height ∧
    errorPenalty ErrType.elbow_bent_left ≤ errorPenalty ErrType.asymmetric_movement ∧
    (calculateFormScore [ErrType.elbow_bent_left] (initState : AnalyzerState ℚ)).1 =
      max 0 (100 - ([ErrType.elbow_bent_left].map errorPenalty).sum) ∧
    0 ≤ (stepValid (flatInp 10 0) (initState : AnalyzerState ℚ)).1.formScore ∧
    (stepValid (flatInp 10 0) (initState : AnalyzerState ℚ)).1.formScore ≤ 100 :=
  ⟨by decide,
   formScore_spec.2.2.1 ErrType.elbow_bent_left (by decide),
   formScore_spec.1 [ErrType.elbow_bent_left] initState,
   (formScore_spec.2.1 (flatInp 10 0) initState).1,
   (formScore_spec.2.1 (flatInp 10 0) initState).2⟩

theorem stepValid_currentRep_noclose (inp : FrameInput ℚ) (s : AnalyzerState ℚ)
    (h : ¬ (s.currentPhase = .lowering ∧ workingSignal s inp.leftArm inp.rightArm < 30)) :
    (stepValid inp s).2.currentRep =
      (detectMovementPhase (calculateArmAngles inp) inp s).2.currentRep := by
  have hstep : (stepValid inp s).2.currentRep =
      (updateRepCount (detectMovementPhase (calculateArmAngles inp) inp s).1
        { (detectMovementPhase (calculateArmAngles inp) inp s).2 with
          currentErrors := detectErrors (calculateArmAngles inp)
            (detectMovementPhase (calculateArmAngles inp) inp s).1
            (detectMovementPhase (calculateArmAngles inp) inp s).2 }).currentRep := rfl
  have hw : workingSignal s (calculateArmAngles inp).leftArm
      (calculateArmAngles inp).rightArm = workingSignal s inp.leftArm inp.rightArm := rfl
  rw [hstep, updateRepCount_currentRep, setErrors_previousPhase, dmp_snd_previousPhase,
    if_neg, setErrors_currentRep]
  intro hcon
  have := (nextPhase_resting_lowering (workingSignal s inp.leftArm inp.rightArm)
    s.currentPhase).mp ⟨by rw [dmp_fst, hw] at hcon; exact hcon.1, hcon.2⟩
  exact h this

/-- C8 (amended): `currentRep.peakAngle` is only tracked while the smoothed
signal lies in the target band `[80, 100]` — on each frame it becomes the
smoothed signal if that is in the band and exceeds the stored peak, is left
unchanged otherwise (in particular it does not follow smoothed values outside
the band), so it never decreases while a rep is in progress; it is reset to 0
exactly when the rep closes at the `LOWERING → RESTING` transition. -/
theorem peakAngle_update_rule (inp : FrameInput ℚ) (s : AnalyzerState ℚ) :
    ((stepValid inp s).2.currentRep.peakAngle =
      (if s.currentPhase = .lowering ∧ workingSignal s inp.leftArm inp.rightArm < 30
       then 0
       else if 80 ≤ workingSignal s inp.leftArm inp.rightArm ∧
               workingSignal s inp.leftArm inp.rightArm ≤ 100 ∧
               s.currentRep.peakAngle < workingSignal s inp.leftArm inp.rightArm
            then workingSignal s inp.leftArm inp.rightArm
            else s.currentRep.peakAngle)) ∧
    (¬ (s.currentPhase = .lowering ∧ workingSignal s inp.leftArm inp.rightArm < 30) →
      s.currentRep.peakAngle ≤ (stepValid inp s).2.currentRep.peakAngle) ∧
    (s.currentPhase = .lowering ∧ workingSignal s inp.leftArm inp.rightArm < 30 →
      (stepValid inp s).2.currentRep.peakAngle = 0) := by
  have hw : workingSignal s (calculateArmAngles inp).leftArm
      (calculateArmAngles inp).rightArm = workingSignal s inp.leftArm inp.rightArm := rfl
  have hmain : (stepValid inp s).2.currentRep.peakAngle =
      (if s.currentPhase = .lowering ∧ workingSignal s inp.leftArm inp.rightArm < 30
       then 0
       else if 80 ≤ workingSignal s inp.leftArm inp.rightArm ∧
               workingSignal s inp.leftArm inp.rightArm ≤ 100 ∧
               s.currentRep.peakAngle < workingSignal s inp.leftArm inp.rightArm
            then workingSignal s inp.leftArm inp.rightArm
            else s.currentRep.peakAngle) := by
    by_cases hc : s.currentPhase = .lowering ∧ workingSignal s inp.leftArm inp.rightArm < 30
    · rw [stepValid_close_currentRep inp s hc.1 hc.2, if_pos hc]
      rfl
    · rw [stepValid_currentRep_noclose inp s hc, dmp_snd_peakAngle, hw, if_neg hc]
  refine ⟨hmain, fun h => ?_, fun h => ?_⟩
  · rw [hmain, if_neg h]
    split_ifs with h2
    · exact le_of_lt h2.2.2
    · exact le_refl _
  · rw [hmain, if_pos h]

/-- C8 witness: on a fresh analyzer a 10° frame is not a rep close, and the
stored peak does not decrease. -/
theorem peakAngle_update_rule_witness :
    ¬ ((initState : AnalyzerState ℚ).currentPhase = .lowering ∧
       workingSignal (initState : AnalyzerState ℚ)
         (flatInp 10 0).leftArm (flatInp 10 0).rightArm < 30) ∧
    (initState : AnalyzerState ℚ).currentRep.peakAngle ≤
      (stepValid (flatInp 10 0) initState).2.currentRep.peakAngle :=
  ⟨fun h => (nomatch h.1),
   (peakAngle_update_rule (flatInp 10 0) initState).2.1 (fun h => (nomatch h.1))⟩

/-- C8 counterexample: two frames (10° then 90°) put a fresh analyzer one
frame into a rep (`raising`, `startTime` recorded); the smoothed signal
observed on that frame is 50°, yet `currentRep.peakAngle` is still 0 — the
peak does not track the maximum smoothed angle observed during the rep, only
smoothed values inside the target band `[80, 100]`. -/
theorem peak_not_max_observed :
    (stepValid (flatInp 90 100) restSt).2.currentPhase = Phase.raising ∧
    (stepValid (flatInp 90 100) restSt).2.currentRep.startTime = 100 ∧
    workingSignal restSt (flatInp 90 100).leftArm (flatInp 90 100).rightArm = 50 ∧
    (stepValid (flatInp 90 100) restSt).2.currentRep.peakAngle = 0 ∧
    (stepValid (flatInp 90 100) restSt).2.currentRep.peakAngle ≠
      workingSignal restSt (flatInp 90 100).leftArm (flatInp 90 100).rightArm := by
  norm_num [stepValid, detectMovementPhase, detectErrors, updateRepCount,
    calculateFormScore, calculateArmAngles, nextHists, histAvg, workingSignal,
    initState, initRep, restSt, stepSt, flatInp]

theorem mem_detectErrors_tooFast (angles : AngleSet ℚ) (phase : Phase)
    (s : AnalyzerState ℚ) :
    ErrType.too_fast_raising ∈ detectErrors angles phase s ↔
      (phase = .holding ∧ s.previousPhase = .raising ∧
       0 < s.currentRep.raiseTime ∧ s.currentRep.raiseTime < 1500) := by
  unfold detectErrors
  split_ifs <;> simp_all

theorem nextPhase_raising_holding (w : ℚ) :
    (nextPhase w Phase.raising = Phase.holding) ↔ (80 ≤ w ∧ w ≤ 100) := by
  unfold nextPhase
  split_ifs <;> simp_all <;> intros <;> linarith

/-- C10 (amended): the error set of a frame contains `too_fast_raising` iff the
frame is a `RAISING → HOLDING` transition (smoothed signal entering
`[80, 100]` from phase `raising`) and the recorded rep `raiseTime` is
strictly between 0 and 1500 ms.  Since `raiseTime` is recorded only at a
`HOLDING → LOWERING` transition, it is still 0 at the first
`RAISING → HOLDING` transition of a rep, where the error therefore cannot
fire. -/
theorem tooFast_error_iff (inp : FrameInput ℚ) (s : AnalyzerState ℚ) :
    ErrType.too_fast_raising ∈ (stepValid inp s).1.errors ↔
      (80 ≤ workingSignal s inp.leftArm inp.rightArm ∧
       workingSignal s inp.leftArm inp.rightArm ≤ 100 ∧
       s.currentPhase = .raising ∧
       0 < s.currentRep.raiseTime ∧ s.currentRep.raiseTime < 1500) := by
  have h0 : (stepValid inp s).1.errors = detectErrors (calculateArmAngles inp)
      (detectMovementPhase (calculateArmAngles inp) inp s).1
      (detectMovementPhase (calculateArmAngles inp) inp s).2 := rfl
  have hw : workingSignal s (calculateArmAngles inp).leftArm
      (calculateArmAngles inp).rightArm = workingSignal s inp.leftArm inp.rightArm := rfl
  rw [h0, mem_detectErrors_tooFast, dmp_snd_previousPhase, dmp_fst, dmp_snd_raiseTime, hw]
  constructor
  · rintro ⟨hph, hcp, hrt1, hrt2⟩
    rw [hcp] at hph
    have hband := (nextPhase_raising_holding _).mp hph
    have hno : ¬ (30 < workingSignal s inp.leftArm inp.rightArm ∧
        workingSignal s inp.leftArm inp.rightArm < 80 ∧
        s.currentPhase = Phase.holding ∧ s.previousPhase = Phase.holding) := by
      rintro ⟨-, -, hh, -⟩
      rw [hcp] at hh
      exact nomatch hh
    rw [if_neg hno] at hrt1 hrt2
    exact ⟨hband.1, hband.2, hcp, hrt1, hrt2⟩
  · rintro ⟨h80, h100, hcp, hr1, hr2⟩
    have hno : ¬ (30 < workingSignal s inp.leftArm inp.rightArm ∧
        workingSignal s inp.leftArm inp.rightArm < 80 ∧
        s.currentPhase = Phase.holding ∧ s.previousPhase = Phase.holding) := by
      rintro ⟨-, hlt, -, -⟩
      linarith
    rw [if_neg hno]
    refine ⟨?_, hcp, hr1, hr2⟩
    rw [hcp]
    exact (nextPhase_raising_holding _).mpr ⟨h80, h100⟩

/-- C10 counterexample: frames 10°, 70°, 170° from fresh.  The third frame is
the `RAISING → HOLDING` transition of the rep (smoothed signal 250/3 ∈ [80, 100])
and the elapsed raise time is `200 - 100 = 100 ms < 1500 ms`, yet
`too_fast_raising` is not reported, because the recorded rep `raiseTime` is
still 0 at this transition. -/
theorem tooFast_missing_at_fast_transition :
    raiseSt.currentPhase = Phase.raising ∧
    raiseSt.currentRep.startTime = 100 ∧
    raiseSt.currentRep.raiseTime = 0 ∧
    (stepValid (flatInp 170 200) raiseSt).1.phase = Phase.holding ∧
    ((200 : ℤ) - raiseSt.currentRep.startTime) < 1500 ∧
    ErrType.too_fast_raising ∉ (stepValid (flatInp 170 200) raiseSt).1.errors := by
  norm_num [stepValid, detectMovementPhase, detectErrors, updateRepCount,
    calculateFormScore, calculateArmAngles, nextHists, histAvg, workingSignal,
    initState, initRep, restSt, raiseSt, stepSt, flatInp] <;> decide

theorem updateRepCount_leftHist (phase : Phase) (s : AnalyzerState α) :
    (updateRepCount phase s).leftArmHistory = s.leftArmHistory := by
  unfold updateRepCount
  split_ifs <;> rfl

theorem updateRepCount_rightHist (phase : Phase) (s : AnalyzerState α) :
    (updateRepCount phase s).rightArmHistory = s.rightArmHistory := by
  unfold updateRepCount
  split_ifs <;> rfl

theorem dmp_snd_leftHist (a : AngleSet α) (inp : FrameInput α) (s : AnalyzerState α) :
    (detectMovementPhase a inp s).2.leftArmHistory = (nextHists s a.leftArm a.rightArm).1 := by
  unfold detectMovementPhase
  dsimp only
  split_ifs <;> rfl

theorem dmp_snd_rightHist (a : AngleSet α) (inp : FrameInput α) (s : AnalyzerState α) :
    (detectMovementPhase a inp s).2.rightArmHistory = (nextHists s a.leftArm a.rightArm).2 := by
  unfold detectMovementPhase
  dsimp only
  split_ifs <;> rfl

theorem setErrors_leftHist (s : AnalyzerState α) (e : List ErrType) :
    ({ s with currentErrors := e }).leftArmHistory = s.leftArmHistory := rfl

theorem setErrors_rightHist (s : AnalyzerState α) (e : List ErrType) :
    ({ s with currentErrors := e }).rightArmHistory = s.rightArmHistory := rfl

theorem stepValid_snd_leftHist (inp : FrameInput ℚ) (s : AnalyzerState ℚ) :
    (stepValid inp s).2.leftArmHistory = (nextHists s inp.leftArm inp.rightArm).1 := by
  have h : (stepValid inp s).2.leftArmHistory =
      (updateRepCount (detectMovementPhase (calculateArmAngles inp) inp s).1
        { (detectMovementPhase (calculateArmAngles inp) inp s).2 with
          currentErrors := detectErrors (calculateArmAngles inp)
            (detectMovementPhase (calculateArmAngles inp) inp s).1
            (detectMovementPhase (calculateArmAngles inp) inp s).2 }).leftArmHistory := rfl
  rw [h, updateRepCount_leftHist, setErrors_leftHist, dmp_snd_leftHist]
  rfl

theorem stepValid_snd_rightHist (inp : FrameInput ℚ) (s : AnalyzerState ℚ) :
    (stepValid inp s).2.rightArmHistory = (nextHists s inp.leftArm inp.rightArm).2 := by
  have h : (stepValid inp s).2.rightArmHistory =
      (updateRepCount (detectMovementPhase (calculateArmAngles inp) inp s).1
        { (detectMovementPhase (calculateArmAngles inp) inp s).2 with
          currentErrors := detectErrors (calculateArmAngles inp)
            (detectMovementPhase (calculateArmAngles inp) inp s).1
            (detectMovementPhase (calculateArmAngles inp) inp s).2 }).rightArmHistory := rfl
  rw [h, updateRepCount_rightHist, setErrors_rightHist, dmp_snd_rightHist]
  rfl

theorem lastN_length {β : Type} (k : ℕ) (l : List β) :
    (lastN k l).length = min k l.length := by
  unfold lastN
  rw [List.length_drop]
  omega

theorem lastN_map {β γ : Type} (f : β → γ) (k : ℕ) (l : List β) :
    lastN k (l.map f) = (lastN k l).map f := by
  unfold lastN
  rw [List.length_map, List.map_drop]

theorem pushCap_lastN {β : Type} (l : List β) (a : β) :
    (if 5 < (lastN 5 l ++ [a]).length then (lastN 5 l ++ [a]).drop 1
     else lastN 5 l ++ [a]) = lastN 5 (l ++ [a]) := by
  rcases le_or_lt l.length 4 with h | h
  · have h0 : lastN 5 l = l := by
      unfold lastN
      rw [Nat.sub_eq_zero_of_le (by omega), List.drop_zero]
    have h1 : lastN 5 (l ++ [a]) = l ++ [a] := by
      unfold lastN
      rw [List.length_append]
      rw [Nat.sub_eq_zero_of_le (by simp; omega), List.drop_zero]
    rw [h0, h1, if_neg]
    simp
    omega
  · have hlen : (lastN 5 l).length = 5 := by
      rw [lastN_length]
      omega
    have h1 : (lastN 5 l ++ [a]).length = 6 := by
      rw [List.length_append, hlen]
      rfl
    rw [if_pos (by rw [h1]; omega)]
    unfold lastN
    rw [List.length_append]
    have h2 : (l.drop (l.length - 5) ++ [a]).drop 1 = (l.drop (l.length - 5)).drop 1 ++ [a] := by
      refine List.drop_append_of_le_length ?_
      rw [List.length_drop]
      omega
    rw [h2, List.drop_drop]
    have h3 : (l ++ [a]).drop (l.length + 1 - 5) = l.drop (l.length + 1 - 5) ++ [a] := by
      refine List.drop_append_of_le_length (by omega)
    rw [List.length_singleton, h3]
    congr 1
    · congr 1
      omega

theorem nextHists_eq (s : AnalyzerState ℚ) (l r : ℚ)
    (hlen : s.leftArmHistory.length = s.rightArmHistory.length) :
    (nextHists s l r).1 =
      (if 5 < (s.leftArmHistory ++ [l]).length then (s.leftArmHistory ++ [l]).drop 1
       else s.leftArmHistory ++ [l]) ∧
    (nextHists s l r).2 =
      (if 5 < (s.rightArmHistory ++ [r]).length then (s.rightArmHistory ++ [r]).drop 1
       else s.rightArmHistory ++ [r]) := by
  have hlen2 : (s.leftArmHistory ++ [l]).length = (s.rightArmHistory ++ [r]).length := by
    simp [hlen]
  unfold nextHists
  dsimp only
  rw [hlen2]
  split_ifs <;> exact ⟨rfl, rfl⟩

theorem runSeq_hists (pre : List (FrameInput ℚ)) :
    ∀ (xs : List (ℚ × ℚ)) (s : AnalyzerState ℚ),
      s.leftArmHistory = lastN 5 (xs.map Prod.fst) →
      s.rightArmHistory = lastN 5 (xs.map Prod.snd) →
      (runSeq pre s).leftArmHistory =
        lastN 5 ((xs ++ pre.map (fun i => (i.leftArm, i.rightArm))).map Prod.fst) ∧
      (runSeq pre s).rightArmHistory =
        lastN 5 ((xs ++ pre.map (fun i => (i.leftArm, i.rightArm))).map Prod.snd) := by
  induction pre with
  | nil =>
    intro xs s hl hr
    simpa [runSeq] using ⟨hl, hr⟩
  | cons i t ih =>
    intro xs s hl hr
    have hrun : runSeq (i :: t) s = runSeq t (stepValid i s).2 := by
      simp [runSeq]
    have hlenh : s.leftArmHistory.length = s.rightArmHistory.length := by
      rw [hl, hr]
      simp [lastN_length]
    obtain ⟨h1, h2⟩ := nextHists_eq s i.leftArm i.rightArm hlenh
    have hl' : (stepValid i s).2.leftArmHistory =
        lastN 5 ((xs ++ [(i.leftArm, i.rightArm)]).map Prod.fst) := by
      rw [stepValid_snd_leftHist, h1, hl, List.map_append]
      exact pushCap_lastN (xs.map Prod.fst) i.leftArm
    have hr' : (stepValid i s).2.rightArmHistory =
        lastN 5 ((xs ++ [(i.leftArm, i.rightArm)]).map Prod.snd) := by
      rw [stepValid_snd_rightHist, h2, hr, List.map_append]
      exact pushCap_lastN (xs.map Prod.snd) i.rightArm
    have := ih (xs ++ [(i.leftArm, i.rightArm)]) (stepValid i s).2 hl' hr'
    rw [hrun]
    simpa [List.append_assoc] using this

theorem sum_map_avg (L : List (ℚ × ℚ)) :
    (L.map (fun p => (p.1 + p.2) / 2)).sum =
      ((L.map Prod.fst).sum + (L.map Prod.snd).sum) / 2 := by
  induction L with
  | nil => simp
  | cons p t ih =>
    simp only [List.map_cons, List.sum_cons, ih]
    ring

theorem histAvg_pair (L : List (ℚ × ℚ)) (h : L ≠ []) :
    (histAvg (L.map Prod.fst) + histAvg (L.map Prod.snd)) / 2 =
      histAvg (L.map (fun p => (p.1 + p.2) / 2)) := by
  unfold histAvg
  rw [sum_map_avg]
  simp only [List.length_map]
  rw [div_add_div_same, div_div, div_div, mul_comm]

/-- C9: for every frame of every sequence, the working signal of the phase machine
— computed by the implementation as two equal-length side buffers, each
averaged, then combined — equals the arithmetic mean of the specified single 5-sample
rolling buffer of per-frame average elevation angles over the most recent
`min(n, 5)` accepted frames (oldest evicted first, in arrival order). -/
theorem smoothing_refines_single_buffer (pre : List (FrameInput ℚ)) (inp : FrameInput ℚ) :
    workingSignal (runSeq pre initState) inp.leftArm inp.rightArm =
      specSignal ((pre ++ [inp]).map (fun i => (i.leftArm, i.rightArm))) := by
  set L := (pre ++ [inp]).map (fun i => (i.leftArm, i.rightArm)) with hLdef
  obtain ⟨hl, hr⟩ := runSeq_hists pre [] initState
    (by simp [initState, lastN]) (by simp [initState, lastN])
  simp only [List.nil_append] at hl hr
  have hlenh : (runSeq pre initState).leftArmHistory.length =
      (runSeq pre initState).rightArmHistory.length := by
    rw [hl, hr]
    simp [lastN_length]
  obtain ⟨h1, h2⟩ := nextHists_eq (runSeq pre initState) inp.leftArm inp.rightArm hlenh
  have hXl : (pre.map (fun i => (i.leftArm, i.rightArm))).map Prod.fst ++ [inp.leftArm]
      = L.map Prod.fst := by
    simp [hLdef]
  have hXr : (pre.map (fun i => (i.leftArm, i.rightArm))).map Prod.snd ++ [inp.rightArm]
      = L.map Prod.snd := by
    simp [hLdef]
  have hp1 : (nextHists (runSeq pre initState) inp.leftArm inp.rightArm).1 =
      (lastN 5 L).map Prod.fst := by
    rw [h1, hl, pushCap_lastN, hXl, lastN_map]
  have hp2 : (nextHists (runSeq pre initState) inp.leftArm inp.rightArm).2 =
      (lastN 5 L).map Prod.snd := by
    rw [h2, hr, pushCap_lastN, hXr, lastN_map]
  have hne : lastN 5 L ≠ [] := by
    refine List.ne_nil_of_length_pos ?_
    rw [lastN_length]
    have : L.length = pre.length + 1 := by
      rw [hLdef, List.length_map, List.length_append]
      rfl
    omega
  unfold workingSignal specSignal specBuffer
  dsimp only
  rw [hp1, hp2, histAvg_pair _ hne, ← lastN_map]

theorem arctan_nonneg_of (t : ℝ) (h : 0 ≤ t) : 0 ≤ Real.arctan t := by
  have h2 := Real.arctan_strictMono.monotone h
  rwa [Real.arctan_zero] at h2

theorem jsAtan2_eq_arctan (y x : ℝ) (hx : 0 < x) : jsAtan2 y x = Real.arctan (y / x) := by
  unfold jsAtan2
  rw [if_pos hx]

theorem jsAtan2_quadrant_bounds (y x : ℝ) (hy : 0 ≤ y) (hx : 0 ≤ x) :
    0 ≤ jsAtan2 y x ∧ jsAtan2 y x ≤ Real.pi / 2 := by
  rcases lt_or_eq_of_le hx with hxpos | hxeq
  · rw [jsAtan2_eq_arctan _ _ hxpos]
    exact ⟨arctan_nonneg_of _ (div_nonneg hy hx),
      le_of_lt (Real.arctan_lt_pi_div_two _)⟩
  · subst hxeq
    unfold jsAtan2
    rw [if_neg (lt_irrefl 0), if_neg (lt_irrefl 0)]
    split_ifs with h3 h4
    · exact ⟨by positivity, le_refl _⟩
    · exact absurd h4 (not_lt.mpr hy)
    · exact ⟨le_refl _, by positivity⟩

theorem deg_of_quadrant (v : ℝ) (h0 : 0 ≤ v) (h2 : v ≤ Real.pi / 2) :
    0 ≤ v * 180 / Real.pi ∧ v * 180 / Real.pi ≤ 90 := by
  constructor
  · exact div_nonneg (mul_nonneg h0 (by norm_num)) (le_of_lt Real.pi_pos)
  · rw [div_le_iff Real.pi_pos]
    nlinarith [Real.pi_pos]

/-- C6: the per-side elevation angle of `calculateArmAngleFromBody`: with the
wrist below the shoulder (`wrist.y > shoulder.y` in image coordinates) it is
the arctangent of the horizontal over vertical offset magnitudes scaled to
degrees, lying in `[0, 90]` (0 = straight down); with the wrist at or above
shoulder height it is `90 +` the arctangent of the vertical over horizontal
offset magnitudes, lying in `[90, 180]`; in both cases the returned value is
in `[0, 180]`. -/
theorem calculateArmAngleFromBody_spec (shoulder elbow wrist hip : Landmark) :
    (shoulder.y < wrist.y →
      calculateArmAngleFromBody shoulder elbow wrist hip =
        Real.arctan (|wrist.x - shoulder.x| / |wrist.y - shoulder.y|) * 180 / Real.pi ∧
      0 ≤ calculateArmAngleFromBody shoulder elbow wrist hip ∧
      calculateArmAngleFromBody shoulder elbow wrist hip ≤ 90) ∧
    (¬ shoulder.y < wrist.y →
      (|wrist.x - shoulder.x| ≠ 0 →
        calculateArmAngleFromBody shoulder elbow wrist hip =
          90 + Real.arctan (|wrist.y - shoulder.y| / |wrist.x - shoulder.x|) * 180 / Real.pi) ∧
      90 ≤ calculateArmAngleFromBody shoulder elbow wrist hip ∧
      calculateArmAngleFromBody shoulder elbow wrist hip ≤ 180) ∧
    (0 ≤ calculateArmAngleFromBody shoulder elbow wrist hip ∧
     calculateArmAngleFromBody shoulder elbow wrist hip ≤ 180) := by
  have hdx : 0 ≤ |wrist.x - shoulder.x| := abs_nonneg _
  have hdy : 0 ≤ |wrist.y - shoulder.y| := abs_nonneg _
  by_cases hb : shoulder.y < wrist.y
  · have hdy' : 0 < |wrist.y - shoulder.y| :=
      abs_pos.mpr (sub_ne_zero.mpr (ne_of_gt hb))
    have heq : jsAtan2 |wrist.x - shoulder.x| |wrist.y - shoulder.y| =
        Real.arctan (|wrist.x - shoulder.x| / |wrist.y - shoulder.y|) :=
      jsAtan2_eq_arctan _ _ hdy'
    obtain ⟨hq0, hq2⟩ := jsAtan2_quadrant_bounds |wrist.x - shoulder.x|
      |wrist.y - shoulder.y| hdx hdy
    obtain ⟨hd0, hd90⟩ := deg_of_quadrant _ hq0 hq2
    have hval : calculateArmAngleFromBody shoulder elbow wrist hip =
        jsAtan2 |wrist.x - shoulder.x| |wrist.y - shoulder.y| * 180 / Real.pi := by
      unfold calculateArmAngleFromBody
      dsimp only
      rw [if_pos hb, min_eq_right (by linarith), max_eq_right (by linarith)]
    rw [hval]
    refine ⟨fun _ => ⟨by rw [heq], hd0, hd90⟩, fun hc => absurd hb hc, hd0, by linarith⟩
  · obtain ⟨hq0, hq2⟩ := jsAtan2_quadrant_bounds |wrist.y - shoulder.y|
      |wrist.x - shoulder.x| hdy hdx
    obtain ⟨hd0, hd90⟩ := deg_of_quadrant _ hq0 hq2
    have hval : calculateArmAngleFromBody shoulder elbow wrist hip =
        90 + jsAtan2 |wrist.y - shoulder.y| |wrist.x - shoulder.x| * 180 / Real.pi := by
      unfold calculateArmAngleFromBody
      dsimp only
      rw [if_neg hb, min_eq_right (by linarith), max_eq_right (by linarith)]
    rw [hval]
    refine ⟨fun hc => absurd hc hb, fun _ => ⟨fun hxne => ?_, by linarith, by linarith⟩,
      by linarith, by linarith⟩
    have hx' : 0 < |wrist.x - shoulder.x| := lt_of_le_of_ne hdx (Ne.symm hxne)
    rw [jsAtan2_eq_arctan _ _ hx']

/-- C6 witness: both branches at concrete landmarks: a wrist at `(1/2, 1)`
below the shoulder `(0, 0)` yields an angle in `[0, 90]`; a wrist at
`(1/2, -1)` above it yields an angle in `[90, 180]`. -/
theorem calculateArmAngleFromBody_spec_witness :
    (lmShoulder.y < lmWristDown.y ∧
     0 ≤ calculateArmAngleFromBody lmShoulder lmElbow lmWristDown lmHip ∧
     calculateArmAngleFromBody lmShoulder lmElbow lmWristDown lmHip ≤ 90) ∧
    (¬ lmShoulder.y < lmWristUp.y ∧
     90 ≤ calculateArmAngleFromBody lmShoulder lmElbow lmWristUp lmHip ∧
     calculateArmAngleFromBody lmShoulder lmElbow lmWristUp lmHip ≤ 180) :=
  ⟨⟨by norm_num [lmShoulder, lmWristDown],
    ((calculateArmAngleFromBody_spec lmShoulder lmElbow lmWristDown lmHip).1
      (by norm_num [lmShoulder, lmWristDown])).2.1,
    ((calculateArmAngleFromBody_spec lmShoulder lmElbow lmWristDown lmHip).1
      (by norm_num [lmShoulder, lmWristDown])).2.2⟩,
   ⟨by norm_num [lmShoulder, lmWristUp],
    ((calculateArmAngleFromBody_spec lmShoulder lmElbow lmWristUp lmHip).2.1
      (by norm_num [lmShoulder, lmWristUp])).2.1,
    ((calculateArmAngleFromBody_spec lmShoulder lmElbow lmWristUp lmHip).2.1
      (by norm_num [lmShoulder, lmWristUp])).2.2⟩⟩

end ArmRaises

namespace ArmRaisesUpd

/-- C7 counterexample: in `HOLDING` entered 100 ms ago, an angle of 10°
(well below the target band) does not transition to `LOWERING` because the
300 ms transition debounce has not elapsed. -/
theorem holding_exit_blocked_by_debounce :
    uS2.currentState = UState.holding ∧ (10 : ℚ) < raisedMin - 20 ∧
    (updateState 10 700 uS2).currentState ≠ UState.lowering ∧
    (updateState 10 700 uS2).currentState = UState.holding := by
  norm_num [uS2, uS1, initUpd, updateState, raisedMin, restingMax] <;> decide

/-- C7 (amended): from `HOLDING` (where `holdStartTime` equals
`lastTransitionTime`, an invariant `updateState` preserves) the machine moves
to `LOWERING` exactly when the hold time reaches 3000 ms, or when the angle
drops below `raisedMin - 20` (an exit tolerance 20° wider than the 75° entry
threshold) provided the 300 ms transition debounce has elapsed; no other
transition leaves `HOLDING`. -/
theorem holding_exit_iff (a : ℚ) (t : ℤ) (s : UpdState) (hinv : HoldInv s) :
    HoldInv (updateState a t s) ∧
    (s.currentState = UState.holding →
      (((updateState a t s).currentState = UState.lowering ↔
         (3000 ≤ t - s.lastTransitionTime ∨
          (300 ≤ t - s.lastTransitionTime ∧ a < raisedMin - 20))) ∧
       ((updateState a t s).currentState = UState.holding ∨
        (updateState a t s).currentState = UState.lowering) ∧
       raisedMin - 20 < raisedMin)) := by
  unfold HoldInv at *
  unfold updateState
  rcases hs : s.currentState <;>
    simp only [hs] <;>
    split_ifs <;>
    simp_all [raisedMin] <;>
    omega

/-- C7 witness: from the reachable `HOLDING` state `uS2` (entered at
`t = 600`), a frame at 10° at `t = 1000` (debounce elapsed) transitions to
`LOWERING`. -/
theorem holding_exit_iff_witness :
    HoldInv uS2 ∧ uS2.currentState = UState.holding ∧
    (updateState 10 1000 uS2).currentState = UState.lowering :=
  ⟨by norm_num [HoldInv, uS2, uS1, initUpd, updateState, raisedMin, restingMax],
   by norm_num [uS2, uS1, initUpd, updateState, raisedMin, restingMax],
   ((holding_exit_iff 10 1000 uS2
       (by norm_num [HoldInv, uS2, uS1, initUpd, updateState, raisedMin, restingMax])).2
     (by norm_num [uS2, uS1, initUpd, updateState, raisedMin, restingMax])).1.mpr
     (Or.inr ⟨by norm_num [uS2, uS1, initUpd, updateState, raisedMin, restingMax],
       by norm_num [raisedMin]⟩)⟩

end ArmRaisesUpd
